import Mathlib

/-!
Shallow embedding of src/personal_assistant_web_v01.py: the Field/Validator
layer and the record sub-aggregates (phone list, birthday, notes), with the
Python exception and string semantics the source relies on.  State-mutating
methods are embedded as functions from the old state to the new state paired
with the exception raised, if any (a raised exception leaves the state as it
was at the point of the raise, exactly as in the source).
-/

namespace PersonalAssistant

/-- Python exceptions raised by the embedded code: ValueError (validators),
TypeError (strptime applied to a non-str argument) and AttributeError
(an attribute access such as None.isdigit()). -/
inductive PyErr where
  | valueError (msg : String)
  | typeError (msg : String)
  | attributeError (msg : String)
deriving DecidableEq, Repr

/-- The values a Field.value holds in the source: None or a str. -/
abbrev PyVal := Option String

/-- Python str(x) applied to a Field value: str(None) is the text None,
str of a str is itself. -/
def pyStr : PyVal → String
  | none => "None"
  | some s => s

/-- Python truthiness of a Field value: None and the empty string are falsy,
every other str is truthy. -/
def pyTruthy : PyVal → Bool
  | none => false
  | some s => s != ""

/-- ASCII decimal digit 0-9 (codes 48-57). -/
def isDigitChar (c : Char) : Bool := 48 ≤ c.toNat && c.toNat ≤ 57

/-- ASCII letter A-Z (65-90) or a-z (97-122). -/
def isAlphaChar (c : Char) : Bool :=
  (65 ≤ c.toNat && c.toNat ≤ 90) || (97 ≤ c.toNat && c.toNat ≤ 122)

/-- Python str.isdigit(): true iff the string is nonempty and every character
is a digit.  The source only feeds text to it; the embedding covers ASCII
text, on which isdigit is exactly the decimal digits 0-9 (Python additionally
accepts some non-ASCII Unicode digit characters, outside this model). -/
def pyIsdigit (s : String) : Bool := !s.data.isEmpty && s.data.all isDigitChar

/-- PhoneValidator.validate (source lines 30-35) on a str: first
value.isdigit() (ValueError: only digits), then len(value) == 9
(ValueError: exactly 9 digits).  The digits check runs first. -/
def phoneValidateStr (s : String) : Except PyErr Unit :=
  if !pyIsdigit s then
    .error (.valueError "The phone number must contain only digits.")
  else if s.length != 9 then
    .error (.valueError "Phone number must contain exactly 9 digits.")
  else
    .ok ()

/-- PhoneValidator.validate on any Field value: None.isdigit() is an
AttributeError in Python (None has no attribute isdigit). -/
def phoneValidateVal : PyVal → Except PyErr Unit
  | none => .error (.attributeError "NoneType object has no attribute isdigit")
  | some s => phoneValidateStr s

/-! ## strptime(value, "%d-%m-%Y") (DateValidator, lines 38-43)

CPython _strptime compiles the format to the regex
  (3[01]|[12]\d|0[1-9]|[1-9]) - (1[0-2]|0[1-9]|[1-9]) - \d\d\d\d
anchored at the start, and rejects when unconverted data remains, so the
whole string must match: a 1-or-2-digit day whose two-digit forms are
01..31 and one-digit forms 1..9, a dash, a 1-or-2-digit month (01..12 /
1..9), a dash, exactly four digits of year.  It then builds
datetime(year, month, day), whose constructor demands
1 <= year <= 9999, 1 <= month <= 12, 1 <= day <= days_in_month(year, month),
raising ValueError otherwise.  No backtracking across the alternation is
observable: a two-digit alternative consumes two digits, after which the
literal dash is required, and the one-digit fallback would need the second
digit to be a dash, which is impossible; so a deterministic
longest-alternative-first parse is exact. -/

/-- Numeric value of a digit character. -/
def digitVal (c : Char) : Nat := c.toNat - 48

/-- The regex alternative [1-9]: a one-digit day. -/
def dayOf1 (c : Char) : Option Nat :=
  if 49 ≤ c.toNat && c.toNat ≤ 57 then some (digitVal c) else none

/-- The regex alternatives 3[01] | [12]\d | 0[1-9]: exactly the two-digit
strings with value 1..31. -/
def dayOf2 (c1 c2 : Char) : Option Nat :=
  if isDigitChar c1 && isDigitChar c2 then
    let v := 10 * digitVal c1 + digitVal c2
    if 1 ≤ v && v ≤ 31 then some v else none
  else none

/-- The regex alternative [1-9] for the month. -/
def monthOf1 (c : Char) : Option Nat :=
  if 49 ≤ c.toNat && c.toNat ≤ 57 then some (digitVal c) else none

/-- The regex alternatives 1[0-2] | 0[1-9]: the two-digit strings with value
1..12. -/
def monthOf2 (c1 c2 : Char) : Option Nat :=
  if isDigitChar c1 && isDigitChar c2 then
    let v := 10 * digitVal c1 + digitVal c2
    if 1 ≤ v && v ≤ 12 then some v else none
  else none

/-- \d\d\d\d, the whole rest of the string: exactly four digits. -/
def parseYear4 : List Char → Option Nat
  | [a, b, c, d] =>
    if isDigitChar a && isDigitChar b && isDigitChar c && isDigitChar d then
      some (1000 * digitVal a + 100 * digitVal b + 10 * digitVal c + digitVal d)
    else none
  | _ => none

/-- month-dash-year tail of the format. -/
def parseMY (cs : List Char) : Option (Nat × Nat) :=
  match cs with
  | c1 :: c2 :: rest =>
    if c2 = '-' then
      match monthOf1 c1, parseYear4 rest with
      | some m, some y => some (m, y)
      | _, _ => none
    else
      match rest with
      | c3 :: rest2 =>
        if c3 = '-' then
          match monthOf2 c1 c2, parseYear4 rest2 with
          | some m, some y => some (m, y)
          | _, _ => none
        else none
      | [] => none
  | _ => none

/-- The full %d-%m-%Y regex, as a whole-string parse returning
(day, month, year). -/
def parseDMY (cs : List Char) : Option (Nat × Nat × Nat) :=
  match cs with
  | c1 :: c2 :: rest =>
    if c2 = '-' then
      match dayOf1 c1, parseMY rest with
      | some d, some my => some (d, my.1, my.2)
      | _, _ => none
    else
      match rest with
      | c3 :: rest2 =>
        if c3 = '-' then
          match dayOf2 c1 c2, parseMY rest2 with
          | some d, some my => some (d, my.1, my.2)
          | _, _ => none
        else none
      | [] => none
  | _ => none

/-- Gregorian leap year, as datetime uses. -/
def isLeapYear (y : Nat) : Bool := y % 4 == 0 && (y % 100 != 0 || y % 400 == 0)

/-- Length of a month, 0 outside 1..12. -/
def daysInMonth (y m : Nat) : Nat :=
  match m with
  | 1 => 31
  | 2 => if isLeapYear y then 29 else 28
  | 3 => 31
  | 4 => 30
  | 5 => 31
  | 6 => 30
  | 7 => 31
  | 8 => 31
  | 9 => 30
  | 10 => 31
  | 11 => 30
  | 12 => 31
  | _ => 0

/-- The datetime(year, month, day) constructor check: MINYEAR 1, MAXYEAR
9999, month 1..12, day 1..days_in_month; ValueError otherwise. -/
def dateCtorOk (y m d : Nat) : Bool :=
  1 ≤ y && y ≤ 9999 && 1 ≤ m && m ≤ 12 && 1 ≤ d && d ≤ daysInMonth y m

/-- datetime.strptime(s, "%d-%m-%Y") succeeds: the format regex matches the
whole string and the datetime constructor accepts the triple. -/
def strptimeDMY (s : String) : Option (Nat × Nat × Nat) := parseDMY s.data

/-- DateValidator.validate on a str: strptime succeeds, else the ValueError
is replaced by the validator's own ValueError (the Python message quotes
the format as 'dd-mm-yyyy'). -/
def dateValidate (s : String) : Bool :=
  match strptimeDMY s with
  | some dmy => dateCtorOk dmy.2.2 dmy.2.1 dmy.1
  | none => false

/-- DateValidator.validate (lines 38-43) on any Field value: strptime(None,
...) raises TypeError, which the except ValueError clause does not catch, so
it propagates. -/
def dateValidateVal : PyVal → Except PyErr Unit
  | none => .error (.typeError "strptime argument 1 must be str, not None")
  | some s =>
    if dateValidate s then .ok ()
    else .error (.valueError "Birthday must be in dd-mm-yyyy format.")

/-! ## EmailValidator's regex (lines 46-55)

re.findall(r'([A-Za-z0-9]+[.-_])*[A-Za-z0-9]+@[A-Za-z0-9-]+(\.[A-Z|a-z]{2,})+', value)

Two traps in the pattern as written: [.-_] is a character RANGE from '.'
(code 46) to '_' (code 95) - it contains the digits, the uppercase letters
and the punctuation . / : ; < = > ? @ [ \ ] ^ _ - and [A-Z|a-z] contains
the literal bar (code 124) besides the letters.  findall scans left to
right, takes at each position the first match the backtracking engine finds
(greedy: longer alternatives and more repetitions are preferred, depth
first), counts it, and resumes after its end; the pattern cannot match the
empty string because of the mandatory @.  The combinators below enumerate
the engine's candidate remainders in exactly that preference order and take
the head. -/

/-- [A-Za-z0-9]. -/
def alnumChar (c : Char) : Bool := isAlphaChar c || isDigitChar c

/-- [.-_]: the range from '.' (46) to '_' (95). -/
def sepRangeChar (c : Char) : Bool := 46 ≤ c.toNat && c.toNat ≤ 95

/-- [A-Za-z0-9-]: the domain characters. -/
def domainChar (c : Char) : Bool := alnumChar c || c = '-'

/-- [A-Z|a-z]: letters and the literal bar (124). -/
def tldRangeChar (c : Char) : Bool := isAlphaChar c || c = '|'

/-- The separator class the claim describes: exactly the three characters
dot, hyphen, underscore.  (Claim-side definition, for comparison with
sepRangeChar, which is what the source's pattern denotes.) -/
def sepSpecChar (c : Char) : Bool := c = '.' || c = '-' || c = '_'

/-- The top-level-segment class the claim describes: letters only.
(Claim-side definition, for comparison with tldRangeChar.) -/
def tldSpecChar (c : Char) : Bool := isAlphaChar c

/-- Remainders after cls+ consumed one or more characters, longest
consumption first: the greedy engine's preference order. -/
def plusSuffixes (cls : Char → Bool) : List Char → List (List Char)
  | [] => []
  | c :: rest => if cls c then plusSuffixes cls rest ++ [rest] else []

/-- One repetition of the group ([A-Za-z0-9]+[.-_]): alnum+ then one
separator character. -/
def lpRep (sep : Char → Bool) (cs : List Char) : List (List Char) :=
  (plusSuffixes alnumChar cs).filterMap fun r =>
    match r with
    | s :: r2 => if sep s then some r2 else none
    | [] => none

/-- ( [A-Za-z0-9]+[.-_] )*: greedy star, more repetitions first, depth
first through each repetition's own choices.  Every repetition consumes at
least two characters, so fuel length+1 never runs out. -/
def lpStar (sep : Char → Bool) : Nat → List Char → List (List Char)
  | 0, cs => [cs]
  | fuel + 1, cs => ((lpRep sep cs).flatMap (lpStar sep fuel)) ++ [cs]

/-- One segment \.[A-Z|a-z]{2,}: a dot then at least two class characters,
longest first. -/
def tldSeg (tld : Char → Bool) (cs : List Char) : List (List Char) :=
  match cs with
  | '.' :: c1 :: c2 :: rest =>
    if tld c1 && tld c2 then plusSuffixes tld rest ++ [rest] else []
  | _ => []

/-- ( \.[A-Z|a-z]{2,} )+: greedy, more segments first.  Every segment
consumes at least three characters. -/
def tldPlus (tld : Char → Bool) : Nat → List Char → List (List Char)
  | 0, _ => []
  | fuel + 1, cs => (tldSeg tld cs).flatMap fun r => tldPlus tld fuel r ++ [r]

/-- The first match the engine finds anchored at the head of cs: the
remainder after it, none when no match starts here. -/
def emailMatchAt (sep tld : Char → Bool) (cs : List Char) : Option (List Char) :=
  ((lpStar sep (cs.length + 1) cs).flatMap fun r1 =>
    (plusSuffixes alnumChar r1).flatMap fun r2 =>
      match r2 with
      | '@' :: r3 =>
        (plusSuffixes domainChar r3).flatMap fun r4 =>
          tldPlus tld (r4.length + 1) r4
      | _ => []).head?

/-- len(re.findall(pattern, s)): scan left to right; at a position where a
match starts, count it and resume after its end, else step one character. -/
def findallCount (sep tld : Char → Bool) : Nat → List Char → Nat
  | 0, _ => 0
  | fuel + 1, cs =>
    match cs with
    | [] => 0
    | c :: rest =>
      match emailMatchAt sep tld (c :: rest) with
      | some r => 1 + findallCount sep tld fuel r
      | none => findallCount sep tld fuel rest

/-- Number of matches of the source's pattern in s. -/
def emailMatchCount (s : String) : Nat :=
  findallCount sepRangeChar tldRangeChar (s.data.length + 1) s.data

/-- Number of matches of the shape the claim describes (separators limited
to dot/hyphen/underscore, top-level segments letters-only).  Claim-side
definition. -/
def emailSpecMatchCount (s : String) : Nat :=
  findallCount sepSpecChar tldSpecChar (s.data.length + 1) s.data

/-- The state EmailValidator keeps on itself: validate assigns self.value on
every success, so the object either has no value attribute yet or holds the
last raw value it accepted. -/
inductive EmailVState where
  | unset
  | stored (v : PyVal)
deriving DecidableEq, Repr

/-- A validator object as attachable to a Field: PhoneValidator and
DateValidator carry no state, EmailValidator carries its value attribute. -/
inductive Validator where
  | phone
  | date
  | email (st : EmailVState)
deriving DecidableEq, Repr

/-- validator.validate(raw): the validator after the call (EmailValidator
mutates itself on success, lines 51 and 55) or the exception raised. -/
def Validator.run : Validator → PyVal → Except PyErr Validator
  | .phone, raw => (phoneValidateVal raw).map fun _ => .phone
  | .date, raw => (dateValidateVal raw).map fun _ => .date
  | .email _, none => .ok (.email (.stored none))
  | .email st, some s =>
    if emailMatchCount s == 1 then .ok (.email (.stored (some s)))
    else
      have _ : EmailVState := st
      .error (.valueError "Incorrect email address")

/-- A Field (lines 58-69): a value and an optional validator. -/
structure Field where
  value : PyVal
  validator : Option Validator
deriving DecidableEq, Repr

/-- Field.set_value (lines 63-66): run the validator if one is attached (an
exception propagates and the field keeps its old state), then overwrite
value.  Returns the field after the call and the exception, if any. -/
def Field.set_value (f : Field) (raw : PyVal) : Field × Option PyErr :=
  match f.validator with
  | none => ({ value := raw, validator := none }, none)
  | some v =>
    match v.run raw with
    | .error e => (f, some e)
    | .ok v2 => ({ value := raw, validator := some v2 }, none)

/-! ## RecordPhone (lines 72-93) -/

/-- RecordPhone.add_phone (lines 77-80): build Field(validator=
PhoneValidator()), set_value(phone) - which validates - and append only
then; an exception leaves the list as it was. -/
def add_phone (phones : List Field) (phone : String) : List Field × Option PyErr :=
  match Field.set_value { value := none, validator := some .phone } (some phone) with
  | (f, none) => (phones ++ [f], none)
  | (_, some e) => (phones, some e)

/-- RecordPhone.remove_phone (lines 82-85): if some entry's str(value)
equals the argument, keep the entries whose str(value) differs. -/
def remove_phone (phones : List Field) (phone : String) : List Field :=
  if (phones.map fun p => pyStr p.value).contains phone then
    phones.filter fun p => pyStr p.value != phone
  else phones

/-- Outcome edit_phone makes visible: an entry was replaced, or the message
Old phone number not found. was printed. -/
inductive EditResult where
  | replaced
  | notFound
deriving DecidableEq, Repr

/-- RecordPhone.edit_phone (lines 87-93): compare each entry's str(value)
with str(Field(old_phone).get_value()), i.e. with old_phone itself; at the
first hit store Field(new_phone, PhoneValidator()) - the CONSTRUCTOR, which
assigns the value without running the validator - and return; with no hit
print the not-found message. -/
def edit_phone : List Field → String → String → List Field × EditResult
  | [], _, _ => ([], .notFound)
  | f :: rest, oldP, newP =>
    if pyStr f.value == oldP then
      ({ value := some newP, validator := some .phone } :: rest, .replaced)
    else
      match edit_phone rest oldP newP with
      | (r, m) => (f :: r, m)

/-! ## RecordBirthday (lines 96-119) -/

/-- RecordBirthday.remove_birthday (lines 106-107): set_value(None) on the
birthday field, whose validator is a DateValidator. -/
def remove_birthday (birthday : Field) : Field × Option PyErr :=
  birthday.set_value none

/-- A Python datetime as datetime.today() yields it: a calendar date plus
the time of day (microseconds since midnight). -/
structure PyDatetime where
  year : Nat
  month : Nat
  day : Nat
  usec : Nat
deriving DecidableEq, Repr

/-- Days before month m in year y (0 for January). -/
def daysBeforeMonth (y m : Nat) : Nat :=
  (match m with
   | 1 => 0
   | 2 => 31
   | 3 => 59
   | 4 => 90
   | 5 => 120
   | 6 => 151
   | 7 => 181
   | 8 => 212
   | 9 => 243
   | 10 => 273
   | 11 => 304
   | 12 => 334
   | _ => 0) + (if 3 ≤ m && isLeapYear y then 1 else 0)

/-- The proleptic Gregorian ordinal of a date, as datetime.toordinal: day 1
is 0001-01-01.  (The truncated subtraction is safe: (y-1)/4 dominates
(y-1)/100.) -/
def toOrdinal (y m d : Nat) : Nat :=
  365 * (y - 1) + ((y - 1) / 4 - (y - 1) / 100) + (y - 1) / 400 +
    daysBeforeMonth y m + d

/-- A datetime as a count of microseconds, the order datetime comparison and
subtraction use. -/
def totalUsec (dt : PyDatetime) : Nat :=
  toOrdinal dt.year dt.month dt.day * 86400000000 + dt.usec

/-- RecordBirthday.days_to_birthday (lines 109-119) with datetime.today()
passed in: falsy stored value returns None; else strptime the stored
string (ValueError on bad data), build datetime(today.year, month, day)
at midnight (the constructor can raise, e.g. Feb 29 in a non-leap year),
roll to today.year+1 when today - time of day included - is strictly past
that midnight, and return (next_birthday - today).days, a floor division
of the microsecond difference. -/
def days_to_birthday (stored : PyVal) (today : PyDatetime) : Except PyErr (Option Int) :=
  if !pyTruthy stored then .ok none
  else
    match stored with
    | none => .ok none
    | some s =>
      match strptimeDMY s with
      | none => .error (.valueError "time data does not match format")
      | some dmy =>
        let d := dmy.1
        let m := dmy.2.1
        let y := dmy.2.2
        if !dateCtorOk y m d then .error (.valueError "time data does not match format")
        else if !dateCtorOk today.year m d then
          .error (.valueError "day is out of range for month")
        else
          let nb1 : Nat := toOrdinal today.year m d * 86400000000
          if totalUsec today > nb1 then
            if !dateCtorOk (today.year + 1) m d then
              .error (.valueError "day is out of range for month")
            else
              .ok (some (Int.fdiv ((toOrdinal (today.year + 1) m d : Int) * 86400000000 -
                (totalUsec today : Int)) 86400000000))
          else
            .ok (some (Int.fdiv ((nb1 : Int) - (totalUsec today : Int)) 86400000000))

/-! ## RecordInfo (lines 150-170)

The notes dict maps Field objects to Field objects: add_note inserts under
the fresh object Field(tag).  Field defines neither __eq__ nor __hash__, so
dict lookup on it is object identity; the str the caller passes to
edit_note / remove_note is never the same object as (nor equal to) any
Field key, so the membership test tag in self.notes is False whatever the
stored tags are. -/

/-- tag in self.notes for a str tag against a Field key: always False (see
above). -/
def noteKeyEq (_ : String) (_ : Field) : Bool := false

/-- RecordInfo.add_note (lines 156-157): notes[Field(tag)] = Field(note); a
fresh key object, so always a new entry, in insertion order. -/
def add_note (notes : List (Field × Field)) (tag note : String) : List (Field × Field) :=
  notes ++ [({ value := some tag, validator := none }, { value := some note, validator := none })]

/-- Outcome a note operation makes visible: the mutation, or the printed
does-not-exist / success message. -/
inductive NoteResult where
  | edited
  | removed
  | notExists
deriving DecidableEq, Repr

/-- RecordInfo.edit_note (lines 159-163): if tag in notes, set_value the
stored note (an unvalidated Field, so it cannot fail); else print the
does-not-exist message. -/
def edit_note (notes : List (Field × Field)) (tag newNote : String) :
    List (Field × Field) × NoteResult :=
  if notes.any fun kv => noteKeyEq tag kv.1 then
    (notes.map fun kv =>
      if noteKeyEq tag kv.1 then (kv.1, { value := some newNote, validator := kv.2.validator })
      else kv, .edited)
  else (notes, .notExists)

/-- RecordInfo.remove_note (lines 165-170): if tag in notes, del and print
success; else print the does-not-exist message. -/
def remove_note (notes : List (Field × Field)) (tag : String) :
    List (Field × Field) × NoteResult :=
  if notes.any fun kv => noteKeyEq tag kv.1 then
    (notes.filter fun kv => !noteKeyEq tag kv.1, .removed)
  else (notes, .notExists)

/-! ## Theorems -/

/-- C4: the claim says remove_birthday always completes without raising and
leaves the field absent.  The code instead calls set_value(None); the
DateValidator feeds None to strptime, which raises TypeError - not caught
by the except ValueError clause - so the call always raises and the stored
value stays what it was. -/
theorem remove_birthday_always_raises :
    remove_birthday { value := some "15-05-1990", validator := some .date } =
      ({ value := some "15-05-1990", validator := some .date },
        some (.typeError "strptime argument 1 must be str, not None")) ∧
    remove_birthday { value := none, validator := some .date } =
      ({ value := none, validator := some .date },
        some (.typeError "strptime argument 1 must be str, not None")) := by
  constructor <;> rfl

/-- C5: the claim says days_to_birthday returns 0 when the stored (month,
day) equals today's.  datetime.today() carries the time of day, so at noon
of 2020-05-15 a birthday 15-05-1990 compares strictly after this year's
midnight occurrence, rolls to 2021, and the floor division yields 364, not
0; a birthday tomorrow (16-05) yields 0, not 1. -/
theorem days_to_birthday_today_is_364 :
    days_to_birthday (some "15-05-1990")
        { year := 2020, month := 5, day := 15, usec := 43200000000 } =
      .ok (some 364) ∧
    days_to_birthday (some "16-05-1990")
        { year := 2020, month := 5, day := 15, usec := 43200000000 } =
      .ok (some 0) := by
  constructor <;> rfl

/-- C2: the claim's scenario says edit("Family","Updated") overwrites the
note and the first remove("Family") reports success.  The notes dict is
keyed by fresh Field objects, so the membership test with the raw str tag
is always False: edit and remove both report does-not-exist and change
nothing, and the note value stays I have a wife. -/
theorem note_edit_remove_never_find :
    edit_note (add_note [] "Family" "I have a wife") "Family" "Updated" =
      (add_note [] "Family" "I have a wife", .notExists) ∧
    (edit_note (add_note [] "Family" "I have a wife") "Family" "Updated").1.map
        (fun kv => kv.2.value) = [some "I have a wife"] ∧
    remove_note (add_note [] "Family" "I have a wife") "Family" =
      (add_note [] "Family" "I have a wife", .notExists) := by
  refine ⟨rfl, rfl, rfl⟩

/-- C1 counterexample: the claim says edit_phone replaces the matched entry
with a freshly VALIDATED Field(new_raw), so an invalid new_raw fails
validation and does not replace the entry.  In the code the replacement is
built by the Field constructor, which does not run the attached validator:
the invalid value 12 replaces the entry and no error is raised, although
PhoneValidator rejects 12. -/
theorem edit_phone_commits_invalid :
    edit_phone [{ value := some "123456789", validator := some .phone }]
        "123456789" "12" =
      ([{ value := some "12", validator := some .phone }], .replaced) ∧
    phoneValidateStr "12" =
      .error (.valueError "Phone number must contain exactly 9 digits.") := by
  refine ⟨rfl, rfl⟩

/-- C1 amended: edit_phone replaces the first entry whose value stringifies
equal to old_raw by Field(new_raw) with a phone validator attached but not
run (new_raw is committed unvalidated), preserving the positions of all
other entries; with no match it reports not-found without raising and
leaves the list unchanged. -/
theorem edit_phone_amended (oldP newP : String) :
    (∀ phones : List Field, (∀ p ∈ phones, pyStr p.value ≠ oldP) →
      edit_phone phones oldP newP = (phones, .notFound)) ∧
    (∀ (ps1 : List Field) (f : Field) (ps2 : List Field),
      (∀ p ∈ ps1, pyStr p.value ≠ oldP) → pyStr f.value = oldP →
      edit_phone (ps1 ++ f :: ps2) oldP newP =
        (ps1 ++ { value := some newP, validator := some .phone } :: ps2, .replaced)) := by
  constructor
  · intro phones h
    induction phones with
    | nil => rfl
    | cons f rest ih =>
      have hf : pyStr f.value ≠ oldP := h f (List.mem_cons_self f rest)
      have : (pyStr f.value == oldP) = false := by
        simpa using hf
      simp only [edit_phone, this, Bool.false_eq_true, if_false]
      rw [ih fun p hp => h p (List.mem_cons_of_mem f hp)]
  · intro ps1 f ps2 h1 hf
    induction ps1 with
    | nil =>
      have : (pyStr f.value == oldP) = true := by simpa using hf
      simp [edit_phone, this]
    | cons g rest ih =>
      have hg : pyStr g.value ≠ oldP := h1 g (List.mem_cons_self g rest)
      have hgf : (pyStr g.value == oldP) = false := by simpa using hg
      simp only [List.cons_append, edit_phone, hgf, Bool.false_eq_true, if_false,
        List.append_eq]
      rw [ih fun p hp => h1 p (List.mem_cons_of_mem g hp)]

/-- C1 amended, witnessed at a concrete input: an empty list reports
not-found unchanged. -/
theorem edit_phone_amended_witness :
    edit_phone [] "123456789" "987654321" = ([], .notFound) :=
  (edit_phone_amended "123456789" "987654321").1 [] (by simp)

/-- C10: add_phone builds the new Field, runs set_value - hence the
validator - and appends only after set_value returned: a raw that fails
PhoneValidator surfaces its error and the list is exactly as before, with
nothing appended. -/
theorem add_phone_invalid_leaves_list (phones : List Field) (raw : String)
    (e : PyErr) (h : phoneValidateStr raw = .error e) :
    add_phone phones raw = (phones, some e) := by
  simp [add_phone, Field.set_value, Validator.run, phoneValidateVal, h, Except.map]

/-- C10 witnessed at a concrete input: the 2-digit raw 12 fails validation
and the singleton list is untouched. -/
theorem add_phone_invalid_leaves_list_witness :
    add_phone [{ value := some "123456789", validator := some .phone }] "12" =
      ([{ value := some "123456789", validator := some .phone }],
        some (.valueError "Phone number must contain exactly 9 digits.")) :=
  add_phone_invalid_leaves_list _ "12"
    (.valueError "Phone number must contain exactly 9 digits.") rfl

/-- C9: adding 123456789 appends a Field whose get_value is 123456789 and
raises nothing; remove_phone keeps exactly the entries whose str(value)
differs from the argument, and in particular with no matching entry it is
a no-op that leaves the list unchanged. -/
theorem phone_roundtrip_remove :
    (∀ phones : List Field, add_phone phones "123456789" =
      (phones ++ [{ value := some "123456789", validator := some .phone }], none)) ∧
    (∀ (phones : List Field) (raw : String),
      remove_phone phones raw = phones.filter fun p => pyStr p.value != raw) ∧
    (∀ (phones : List Field) (raw : String), (∀ p ∈ phones, pyStr p.value ≠ raw) →
      remove_phone phones raw = phones) := by
  have hfilter : ∀ (phones : List Field) (raw : String),
      remove_phone phones raw = phones.filter fun p => pyStr p.value != raw := by
    intro phones raw
    unfold remove_phone
    split
    · rfl
    · next h =>
      symm
      apply List.filter_eq_self.mpr
      intro p hp
      simp only [List.contains_eq_any_beq, List.any_eq_true, List.mem_map,
        not_exists, not_and] at h
      have := h (pyStr p.value) ⟨p, hp, rfl⟩
      simp only [beq_iff_eq] at this
      simp only [bne_iff_ne]
      exact fun hh => this hh.symm
  refine ⟨fun phones => rfl, hfilter, ?_⟩
  intro phones raw h
  rw [hfilter]
  apply List.filter_eq_self.mpr
  intro p hp
  simpa [bne_iff_ne] using h p hp

/-- C9 witnessed at a concrete input: removing a number that is not present
leaves the singleton list unchanged. -/
theorem phone_roundtrip_remove_witness :
    remove_phone [{ value := some "123456789", validator := some .phone }]
        "000000000" =
      [{ value := some "123456789", validator := some .phone }] :=
  phone_roundtrip_remove.2.2 _ "000000000" (by decide)

/-- A successful validator run returns the validator itself, except that
EmailValidator comes back holding the raw it accepted (it assigns
self.value on success). -/
theorem Validator.run_ok {v v2 : Validator} {raw : PyVal} (h : v.run raw = .ok v2) :
    v2 = v ∨ ∃ st, v = .email st ∧ v2 = .email (.stored raw) := by
  rcases v with _ | _ | st
  · left
    rcases hp : phoneValidateVal raw with e | u
    · rw [Validator.run, hp] at h
      simp [Except.map] at h
    · rw [Validator.run, hp] at h
      simpa [Except.map] using h.symm
  · left
    rcases hp : dateValidateVal raw with e | u
    · rw [Validator.run, hp] at h
      simp [Except.map] at h
    · rw [Validator.run, hp] at h
      simpa [Except.map] using h.symm
  · right
    refine ⟨st, rfl, ?_⟩
    rcases raw with _ | s
    · rw [Validator.run] at h
      exact (Except.ok.inj h).symm
    · rw [Validator.run] at h
      split at h
      · exact (Except.ok.inj h).symm
      · cases h

/-- C3 counterexample: the claim says a successful set_value changes
nothing but the stored value.  On a Field carrying an EmailValidator, a
successful validation also mutates the validator object: it records the
accepted raw on itself (self.value, source line 51), so the attached
validator's state after the call differs from before. -/
theorem set_value_email_mutates_validator :
    (Field.set_value { value := none, validator := some (.email .unset) }
        (some "john.doe@gmail.com")).2 = none ∧
    (Field.set_value { value := none, validator := some (.email .unset) }
        (some "john.doe@gmail.com")).1.value = some "john.doe@gmail.com" ∧
    (Field.set_value { value := none, validator := some (.email .unset) }
        (some "john.doe@gmail.com")).1.validator ≠ some (.email .unset) := by
  refine ⟨rfl, rfl, by decide⟩

/-- C3 amended: set_value runs the attached validator; on failure the Field
is exactly as before the call - value and attached validator state alike -
and the error with its reason is returned to the caller; on success (or
with no validator) the stored value becomes raw, and the only other state
change is that an EmailValidator records the accepted raw on itself. -/
theorem set_value_amended (f : Field) (raw : PyVal) :
    (∀ e, (f.set_value raw).2 = some e → (f.set_value raw).1 = f) ∧
    ((f.set_value raw).2 = none → (f.set_value raw).1.value = raw ∧
      ((f.set_value raw).1.validator = f.validator ∨
        ∃ st, f.validator = some (.email st) ∧
          (f.set_value raw).1.validator = some (.email (.stored raw)))) := by
  rcases f with ⟨v0, _ | v⟩
  · exact ⟨fun e he => by simp [Field.set_value] at he,
      fun _ => by simp [Field.set_value]⟩
  · rcases hrun : v.run raw with e | v2
    · constructor
      · intro e2 _
        simp [Field.set_value, hrun]
      · intro hnone
        simp [Field.set_value, hrun] at hnone
    · constructor
      · intro e2 he2
        simp [Field.set_value, hrun] at he2
      · intro _
        refine ⟨by simp [Field.set_value, hrun], ?_⟩
        rcases Validator.run_ok hrun with h2 | ⟨st, hv, h2⟩
        · left
          simp [Field.set_value, hrun, h2]
        · right
          exact ⟨st, by rw [hv], by simp [Field.set_value, hrun, h2]⟩

/-- C3 amended, witnessed at a concrete input: a failing phone validation
leaves the field exactly as it was. -/
theorem set_value_amended_witness :
    (Field.set_value { value := some "123456789", validator := some .phone }
        (some "12")).1 =
      { value := some "123456789", validator := some .phone } :=
  (set_value_amended { value := some "123456789", validator := some .phone }
      (some "12")).1
    (.valueError "Phone number must contain exactly 9 digits.") rfl

/-- C7 counterexample: the claim says a digits-only raw of the wrong length
gets the wrong-length reason.  The empty string contains no non-digit, yet
Python isdigit is False on it, so the code reports the non-digit reason. -/
theorem phone_empty_gets_nondigit_reason :
    phoneValidateStr "" =
      .error (.valueError "The phone number must contain only digits.") ∧
    "".data.all isDigitChar = true ∧ "".length = 0 := by
  refine ⟨rfl, rfl, rfl⟩

/-- C7 amended: accepts iff the raw is all decimal digits of length exactly
9; an empty raw or one containing a non-digit gets the non-digit reason
(isdigit is False on the empty string, and that check runs first); a
nonempty digits-only raw of length other than 9 gets the wrong-length
reason.  Modelled on ASCII text, see pyIsdigit. -/
theorem phoneValidateStr_amended (s : String) :
    (phoneValidateStr s = .ok () ↔ s.data.all isDigitChar = true ∧ s.length = 9) ∧
    (s.data = [] ∨ s.data.all isDigitChar = false →
      phoneValidateStr s =
        .error (.valueError "The phone number must contain only digits.")) ∧
    (s.data ≠ [] → s.data.all isDigitChar = true → s.length ≠ 9 →
      phoneValidateStr s =
        .error (.valueError "Phone number must contain exactly 9 digits.")) := by
  by_cases h1 : pyIsdigit s = true
  · have hne : s.data ≠ [] ∧ s.data.all isDigitChar = true := by
      simpa [pyIsdigit, List.isEmpty_iff] using h1
    by_cases h2 : s.length = 9
    · refine ⟨?_, ?_, ?_⟩
      · simp [phoneValidateStr, h1, h2, hne.2]
      · intro hpre
        rcases hpre with hpre | hpre
        · exact absurd hpre hne.1
        · rw [hne.2] at hpre
          cases hpre
      · intro _ _ h9
        exact absurd h2 h9
    · refine ⟨?_, ?_, ?_⟩
      · constructor
        · intro hok
          simp [phoneValidateStr, h1, h2] at hok
        · intro ⟨_, h9⟩
          exact absurd h9 h2
      · intro hpre
        rcases hpre with hpre | hpre
        · exact absurd hpre hne.1
        · rw [hne.2] at hpre
          cases hpre
      · intro _ _ _
        simp [phoneValidateStr, h1, h2]
  · have herr : phoneValidateStr s =
        .error (.valueError "The phone number must contain only digits.") := by
      simp [phoneValidateStr, h1]
    refine ⟨?_, fun _ => herr, ?_⟩
    · constructor
      · intro hok
        rw [herr] at hok
        cases hok
      · intro ⟨hall, h9⟩
        have hne : s.data ≠ [] := by
          intro hnil
          have : s.length = 0 := by simp [String.length, hnil]
          omega
        exact absurd (by simp [pyIsdigit, List.isEmpty_iff, hne, hall]) h1
    · intro hne hall _
      exact absurd (by simp [pyIsdigit, List.isEmpty_iff, hne, hall]) h1

/-- C7 amended, witnessed at a concrete input: a valid 9-digit number is
accepted. -/
theorem phoneValidateStr_amended_witness :
    phoneValidateStr "123456789" = .ok () :=
  (phoneValidateStr_amended "123456789").1.mpr (by decide)

/-! ## C6: the shape DateValidator actually accepts -/

/-- Numeric value of a digit string, most significant first. -/
def digitsToNat (cs : List Char) : Nat := cs.foldl (fun a c => 10 * a + digitVal c) 0

/-- The shape the claim C6 describes, as stated: a 2-digit day, dash,
2-digit month, dash, 4-digit year, forming a calendar-valid date.
(Claim-side definition, for comparison with dateValidate.) -/
def claimDateShapeB (s : String) : Bool :=
  match s.data with
  | [d1, d2, h1, m1, m2, h2, y1, y2, y3, y4] =>
    h1 == '-' && h2 == '-' &&
    isDigitChar d1 && isDigitChar d2 && isDigitChar m1 && isDigitChar m2 &&
    isDigitChar y1 && isDigitChar y2 && isDigitChar y3 && isDigitChar y4 &&
    dateCtorOk (digitsToNat [y1, y2, y3, y4]) (digitsToNat [m1, m2])
      (digitsToNat [d1, d2])
  | _ => false

/-- The shape the format regex accepts, with the one-digit day and month
forms included: what the amended C6 claims dateValidate tests, together
with the constructor check.  (Claim-side definition for the amended C6.) -/
def DMYShape (s : String) (d m y : Nat) : Prop :=
  ∃ dcs mcs ycs : List Char,
    s.data = dcs ++ '-' :: (mcs ++ '-' :: ycs) ∧
    (dcs.length = 1 ∨ dcs.length = 2) ∧ (∀ c ∈ dcs, isDigitChar c = true) ∧
    d = digitsToNat dcs ∧ 1 ≤ d ∧ d ≤ 31 ∧
    (mcs.length = 1 ∨ mcs.length = 2) ∧ (∀ c ∈ mcs, isDigitChar c = true) ∧
    m = digitsToNat mcs ∧ 1 ≤ m ∧ m ≤ 12 ∧
    ycs.length = 4 ∧ (∀ c ∈ ycs, isDigitChar c = true) ∧ y = digitsToNat ycs

theorem digitsToNat_one (c : Char) : digitsToNat [c] = digitVal c := by
  simp [digitsToNat]

theorem digitsToNat_two (c1 c2 : Char) :
    digitsToNat [c1, c2] = 10 * digitVal c1 + digitVal c2 := by
  simp [digitsToNat]

theorem digitsToNat_four (a b c d : Char) :
    digitsToNat [a, b, c, d] =
      1000 * digitVal a + 100 * digitVal b + 10 * digitVal c + digitVal d := by
  simp [digitsToNat]
  ring

/-- A decimal digit is not a dash ('-' is code 45). -/
theorem digit_ne_dash {c : Char} (h : isDigitChar c = true) : ¬ c = '-' := by
  intro he
  subst he
  simp [isDigitChar] at h

theorem dayOf1_sound {c : Char} {d : Nat} (h : dayOf1 c = some d) :
    isDigitChar c = true ∧ d = digitVal c ∧ 1 ≤ d ∧ d ≤ 9 := by
  simp only [dayOf1] at h
  split_ifs at h with hc
  simp only [Option.some.injEq] at h
  subst h
  simp only [Bool.and_eq_true, decide_eq_true_eq] at hc
  refine ⟨?_, rfl, ?_, ?_⟩
  · simp only [isDigitChar, Bool.and_eq_true, decide_eq_true_eq]
    omega
  · simp only [digitVal]
    omega
  · simp only [digitVal]
    omega

theorem dayOf1_complete {c : Char} (hd : isDigitChar c = true)
    (h1 : 1 ≤ digitVal c) : dayOf1 c = some (digitVal c) := by
  simp only [isDigitChar, Bool.and_eq_true, decide_eq_true_eq] at hd
  simp only [digitVal] at h1
  simp only [dayOf1, digitVal]
  have h49 : 49 ≤ c.toNat := by omega
  simp [h49, hd.2]

theorem dayOf2_sound {c1 c2 : Char} {d : Nat} (h : dayOf2 c1 c2 = some d) :
    isDigitChar c1 = true ∧ isDigitChar c2 = true ∧
      d = 10 * digitVal c1 + digitVal c2 ∧ 1 ≤ d ∧ d ≤ 31 := by
  simp only [dayOf2] at h
  split_ifs at h with hc hv
  simp only [Option.some.injEq] at h
  subst h
  simp only [Bool.and_eq_true] at hc hv
  simp only [decide_eq_true_eq] at hv
  exact ⟨hc.1, hc.2, rfl, hv.1, hv.2⟩

theorem dayOf2_complete {c1 c2 : Char} (h1 : isDigitChar c1 = true)
    (h2 : isDigitChar c2 = true) (hlo : 1 ≤ 10 * digitVal c1 + digitVal c2)
    (hhi : 10 * digitVal c1 + digitVal c2 ≤ 31) :
    dayOf2 c1 c2 = some (10 * digitVal c1 + digitVal c2) := by
  simp [dayOf2, h1, h2, hlo, hhi]

theorem monthOf1_sound {c : Char} {m : Nat} (h : monthOf1 c = some m) :
    isDigitChar c = true ∧ m = digitVal c ∧ 1 ≤ m ∧ m ≤ 9 := by
  simp only [monthOf1] at h
  split_ifs at h with hc
  simp only [Option.some.injEq] at h
  subst h
  simp only [Bool.and_eq_true, decide_eq_true_eq] at hc
  refine ⟨?_, rfl, ?_, ?_⟩
  · simp only [isDigitChar, Bool.and_eq_true, decide_eq_true_eq]
    omega
  · simp only [digitVal]
    omega
  · simp only [digitVal]
    omega

theorem monthOf1_complete {c : Char} (hd : isDigitChar c = true)
    (h1 : 1 ≤ digitVal c) : monthOf1 c = some (digitVal c) := by
  simp only [isDigitChar, Bool.and_eq_true, decide_eq_true_eq] at hd
  simp only [digitVal] at h1
  simp only [monthOf1, digitVal]
  have h49 : 49 ≤ c.toNat := by omega
  simp [h49, hd.2]

theorem monthOf2_sound {c1 c2 : Char} {m : Nat} (h : monthOf2 c1 c2 = some m) :
    isDigitChar c1 = true ∧ isDigitChar c2 = true ∧
      m = 10 * digitVal c1 + digitVal c2 ∧ 1 ≤ m ∧ m ≤ 12 := by
  simp only [monthOf2] at h
  split_ifs at h with hc hv
  simp only [Option.some.injEq] at h
  subst h
  simp only [Bool.and_eq_true] at hc hv
  simp only [decide_eq_true_eq] at hv
  exact ⟨hc.1, hc.2, rfl, hv.1, hv.2⟩

theorem monthOf2_complete {c1 c2 : Char} (h1 : isDigitChar c1 = true)
    (h2 : isDigitChar c2 = true) (hlo : 1 ≤ 10 * digitVal c1 + digitVal c2)
    (hhi : 10 * digitVal c1 + digitVal c2 ≤ 12) :
    monthOf2 c1 c2 = some (10 * digitVal c1 + digitVal c2) := by
  simp [monthOf2, h1, h2, hlo, hhi]

theorem parseYear4_sound {cs : List Char} {y : Nat} (h : parseYear4 cs = some y) :
    cs.length = 4 ∧ (∀ c ∈ cs, isDigitChar c = true) ∧ y = digitsToNat cs := by
  rcases cs with _ | ⟨a, _ | ⟨b, _ | ⟨c, _ | ⟨d, _ | ⟨e, tl⟩⟩⟩⟩⟩
  · simp [parseYear4] at h
  · simp [parseYear4] at h
  · simp [parseYear4] at h
  · simp [parseYear4] at h
  · simp only [parseYear4] at h
    split_ifs at h with hd
    simp only [Option.some.injEq] at h
    subst h
    simp only [Bool.and_eq_true] at hd
    refine ⟨rfl, ?_, ?_⟩
    · intro x hx
      simp only [List.mem_cons, List.not_mem_nil, or_false] at hx
      rcases hx with rfl | rfl | rfl | rfl
      · exact hd.1.1.1
      · exact hd.1.1.2
      · exact hd.1.2
      · exact hd.2
    · rw [digitsToNat_four]
  · simp [parseYear4] at h

theorem parseYear4_complete {cs : List Char} (h4 : cs.length = 4)
    (hd : ∀ c ∈ cs, isDigitChar c = true) :
    parseYear4 cs = some (digitsToNat cs) := by
  rcases cs with _ | ⟨a, _ | ⟨b, _ | ⟨c, _ | ⟨d, _ | ⟨e, tl⟩⟩⟩⟩⟩
  · simp at h4
  · simp at h4
  · simp at h4
  · simp at h4
  · have ha := hd a (by simp)
    have hb := hd b (by simp)
    have hc := hd c (by simp)
    have hdd := hd d (by simp)
    rw [parseYear4, digitsToNat_four]
    simp [ha, hb, hc, hdd]
  · simp at h4

theorem parseMY_sound {cs : List Char} {m y : Nat}
    (h : parseMY cs = some (m, y)) :
    ∃ mcs ycs : List Char, cs = mcs ++ '-' :: ycs ∧
      (mcs.length = 1 ∨ mcs.length = 2) ∧ (∀ c ∈ mcs, isDigitChar c = true) ∧
      m = digitsToNat mcs ∧ 1 ≤ m ∧ m ≤ 12 ∧
      ycs.length = 4 ∧ (∀ c ∈ ycs, isDigitChar c = true) ∧ y = digitsToNat ycs := by
  rcases cs with _ | ⟨c1, _ | ⟨c2, rest⟩⟩
  · simp [parseMY] at h
  · simp [parseMY] at h
  · rcases rest with _ | ⟨c3, rest2⟩
    · simp only [parseMY] at h
      split_ifs at h with h2
      rcases hm : monthOf1 c1 with _ | m1 <;> rw [hm] at h <;>
        simp [parseYear4] at h
    · simp only [parseMY] at h
      split_ifs at h with h2 h3
      · subst h2
        rcases hm : monthOf1 c1 with _ | m1 <;> rw [hm] at h
        · simp at h
        · rcases hy : parseYear4 (c3 :: rest2) with _ | y1 <;> rw [hy] at h
          · simp at h
          · simp only [Option.some.injEq, Prod.mk.injEq] at h
            obtain ⟨rfl, rfl⟩ := h
            obtain ⟨hd1, hv1, hlo1, hhi1⟩ := monthOf1_sound hm
            obtain ⟨hl4, hd4, hv4⟩ := parseYear4_sound hy
            refine ⟨[c1], c3 :: rest2, by simp, Or.inl rfl, ?_, ?_, hlo1,
              by omega, hl4, hd4, hv4⟩
            · intro x hx
              simp only [List.mem_singleton] at hx
              subst hx
              exact hd1
            · rw [digitsToNat_one, hv1]
      · subst h3
        rcases hm : monthOf2 c1 c2 with _ | m1 <;> rw [hm] at h
        · simp at h
        · rcases hy : parseYear4 rest2 with _ | y1 <;> rw [hy] at h
          · simp at h
          · simp only [Option.some.injEq, Prod.mk.injEq] at h
            obtain ⟨rfl, rfl⟩ := h
            obtain ⟨hdc1, hdc2, hv, hlo, hhi⟩ := monthOf2_sound hm
            obtain ⟨hl4, hd4, hv4⟩ := parseYear4_sound hy
            refine ⟨[c1, c2], rest2, by simp, Or.inr rfl, ?_, ?_, hlo, hhi,
              hl4, hd4, hv4⟩
            · intro x hx
              simp only [List.mem_cons, List.not_mem_nil, or_false] at hx
              rcases hx with rfl | rfl
              · exact hdc1
              · exact hdc2
            · rw [digitsToNat_two, hv]

theorem parseMY_complete {mcs ycs : List Char}
    (hml : mcs.length = 1 ∨ mcs.length = 2)
    (hmd : ∀ c ∈ mcs, isDigitChar c = true)
    (hm1 : 1 ≤ digitsToNat mcs) (hm12 : digitsToNat mcs ≤ 12)
    (hy4 : ycs.length = 4) (hyd : ∀ c ∈ ycs, isDigitChar c = true) :
    parseMY (mcs ++ '-' :: ycs) = some (digitsToNat mcs, digitsToNat ycs) := by
  rcases mcs with _ | ⟨c1, _ | ⟨c2, tl⟩⟩
  · simp at hml
  · have hd1 := hmd c1 (by simp)
    have h1 : 1 ≤ digitVal c1 := by rwa [digitsToNat_one] at hm1
    rw [List.singleton_append]
    simp only [parseMY]
    rw [if_pos trivial, monthOf1_complete hd1 h1, parseYear4_complete hy4 hyd,
      digitsToNat_one]
  · rcases tl with _ | ⟨c3, tl2⟩
    · have hd1 := hmd c1 (by simp)
      have hd2 := hmd c2 (by simp)
      rw [digitsToNat_two] at hm1 hm12
      have hne : ¬ c2 = '-' := digit_ne_dash hd2
      rw [List.cons_append, List.singleton_append]
      simp only [parseMY]
      rw [if_neg hne, if_pos trivial, monthOf2_complete hd1 hd2 hm1 hm12,
        parseYear4_complete hy4 hyd, digitsToNat_two]
    · rcases hml with hml | hml <;> simp at hml

theorem parseDMY_sound {cs : List Char} {d m y : Nat}
    (h : parseDMY cs = some (d, m, y)) :
    ∃ dcs mcs ycs : List Char, cs = dcs ++ '-' :: (mcs ++ '-' :: ycs) ∧
      (dcs.length = 1 ∨ dcs.length = 2) ∧ (∀ c ∈ dcs, isDigitChar c = true) ∧
      d = digitsToNat dcs ∧ 1 ≤ d ∧ d ≤ 31 ∧
      (mcs.length = 1 ∨ mcs.length = 2) ∧ (∀ c ∈ mcs, isDigitChar c = true) ∧
      m = digitsToNat mcs ∧ 1 ≤ m ∧ m ≤ 12 ∧
      ycs.length = 4 ∧ (∀ c ∈ ycs, isDigitChar c = true) ∧ y = digitsToNat ycs := by
  rcases cs with _ | ⟨c1, _ | ⟨c2, rest⟩⟩
  · simp [parseDMY] at h
  · simp [parseDMY] at h
  · rcases rest with _ | ⟨c3, rest2⟩
    · simp only [parseDMY] at h
      split_ifs at h with h2
      rcases hd : dayOf1 c1 with _ | d1 <;> rw [hd] at h <;>
        simp [parseMY] at h
    · simp only [parseDMY] at h
      split_ifs at h with h2 h3
      · subst h2
        rcases hd : dayOf1 c1 with _ | d1 <;> rw [hd] at h
        · simp at h
        · rcases hmy : parseMY (c3 :: rest2) with _ | ⟨m1, y1⟩ <;> rw [hmy] at h
          · simp at h
          · simp only [Option.some.injEq, Prod.mk.injEq] at h
            obtain ⟨rfl, rfl, rfl⟩ := h
            obtain ⟨hdc, hdv, hdlo, hdhi⟩ := dayOf1_sound hd
            obtain ⟨mcs, ycs, hr, hp⟩ := parseMY_sound hmy
            refine ⟨[c1], mcs, ycs, by simp [hr], Or.inl rfl, ?_, ?_, hdlo,
              by omega, hp.1, hp.2.1, hp.2.2.1, hp.2.2.2.1, hp.2.2.2.2.1,
              hp.2.2.2.2.2.1, hp.2.2.2.2.2.2⟩
            · intro x hx
              simp only [List.mem_singleton] at hx
              subst hx
              exact hdc
            · rw [digitsToNat_one, hdv]
      · subst h3
        rcases hd : dayOf2 c1 c2 with _ | d1 <;> rw [hd] at h
        · simp at h
        · rcases hmy : parseMY rest2 with _ | ⟨m1, y1⟩ <;> rw [hmy] at h
          · simp at h
          · simp only [Option.some.injEq, Prod.mk.injEq] at h
            obtain ⟨rfl, rfl, rfl⟩ := h
            obtain ⟨hdc1, hdc2, hdv, hdlo, hdhi⟩ := dayOf2_sound hd
            obtain ⟨mcs, ycs, hr, hp⟩ := parseMY_sound hmy
            refine ⟨[c1, c2], mcs, ycs, by simp [hr], Or.inr rfl, ?_, ?_,
              hdlo, hdhi, hp.1, hp.2.1, hp.2.2.1, hp.2.2.2.1,
              hp.2.2.2.2.1, hp.2.2.2.2.2.1, hp.2.2.2.2.2.2⟩
            · intro x hx
              simp only [List.mem_cons, List.not_mem_nil, or_false] at hx
              rcases hx with rfl | rfl
              · exact hdc1
              · exact hdc2
            · rw [digitsToNat_two, hdv]

theorem parseDMY_complete {dcs mcs ycs : List Char}
    (hdl : dcs.length = 1 ∨ dcs.length = 2)
    (hdd : ∀ c ∈ dcs, isDigitChar c = true)
    (hd1 : 1 ≤ digitsToNat dcs) (hd31 : digitsToNat dcs ≤ 31)
    (hml : mcs.length = 1 ∨ mcs.length = 2)
    (hmd : ∀ c ∈ mcs, isDigitChar c = true)
    (hm1 : 1 ≤ digitsToNat mcs) (hm12 : digitsToNat mcs ≤ 12)
    (hy4 : ycs.length = 4) (hyd : ∀ c ∈ ycs, isDigitChar c = true) :
    parseDMY (dcs ++ '-' :: (mcs ++ '-' :: ycs)) =
      some (digitsToNat dcs, digitsToNat mcs, digitsToNat ycs) := by
  rcases dcs with _ | ⟨c1, _ | ⟨c2, tl⟩⟩
  · simp at hdl
  · have hc1 := hdd c1 (by simp)
    have h1 : 1 ≤ digitVal c1 := by rwa [digitsToNat_one] at hd1
    rw [List.singleton_append]
    simp only [parseDMY]
    rw [if_pos trivial, dayOf1_complete hc1 h1,
      parseMY_complete hml hmd hm1 hm12 hy4 hyd, digitsToNat_one]
  · rcases tl with _ | ⟨c3, tl2⟩
    · have hc1 := hdd c1 (by simp)
      have hc2 := hdd c2 (by simp)
      rw [digitsToNat_two] at hd1 hd31
      have hne : ¬ c2 = '-' := digit_ne_dash hc2
      rw [List.cons_append, List.singleton_append]
      simp only [parseDMY]
      rw [if_neg hne, if_pos trivial, dayOf2_complete hc1 hc2 hd1 hd31,
        parseMY_complete hml hmd hm1 hm12 hy4 hyd, digitsToNat_two]
    · rcases hdl with hdl | hdl <;> simp at hdl

/-- C6 counterexample: the claim says DateValidator accepts only 2-digit
days.  strptime's %d also matches a single digit 1-9, so 5-05-1990 is
accepted although it is not of the claimed dd-mm-yyyy shape. -/
theorem dateValidator_accepts_one_digit_day :
    dateValidate "5-05-1990" = true ∧ claimDateShapeB "5-05-1990" = false := by
  refine ⟨rfl, rfl⟩

/-- C6 amended: DateValidator accepts a string iff it is a dash-separated
day-month-year with a 1-or-2-digit day of value 1..31, a 1-or-2-digit
month of value 1..12 and an exactly-4-digit year, whose triple passes the
datetime constructor (year at least 1, day within the month); otherwise it
rejects with the bad-format error.  31-02-2020, 00-01-2020 and 15/05/1990
all reject. -/
theorem dateValidator_amended :
    (∀ s : String, dateValidate s = true ↔
      ∃ d m y, DMYShape s d m y ∧ dateCtorOk y m d = true) ∧
    dateValidate "31-02-2020" = false ∧
    dateValidate "00-01-2020" = false ∧
    dateValidate "15/05/1990" = false := by
  refine ⟨?_, rfl, rfl, rfl⟩
  intro s
  constructor
  · intro h
    rw [dateValidate] at h
    rcases hp : strptimeDMY s with _ | ⟨d, m, y⟩ <;> rw [hp] at h
    · cases h
    · obtain ⟨dcs, mcs, ycs, hsplit, hrest⟩ := parseDMY_sound hp
      exact ⟨d, m, y, ⟨dcs, mcs, ycs, hsplit, hrest⟩, h⟩
  · rintro ⟨d, m, y, ⟨dcs, mcs, ycs, hsplit, hdl, hdd, hdv, hd1, hd31, hml,
      hmd, hmv, hm1, hm12, hyl, hyd, hyv⟩, hctor⟩
    subst hdv hmv hyv
    have hp : strptimeDMY s =
        some (digitsToNat dcs, digitsToNat mcs, digitsToNat ycs) := by
      rw [strptimeDMY, hsplit]
      exact parseDMY_complete hdl hdd hd1 hd31 hml hmd hm1 hm12 hyl hyd
    rw [dateValidate, hp]
    exact hctor

/-- C6 amended, witnessed at a concrete input: the leap day 29-02-2000 is
accepted via its shape decomposition. -/
theorem dateValidator_amended_witness : dateValidate "29-02-2000" = true :=
  (dateValidator_amended.1 "29-02-2000").mpr
    ⟨29, 2, 2000,
      ⟨['2', '9'], ['0', '2'], ['2', '0', '0', '0'], by decide, by decide,
        by decide, by decide, by decide, by decide, by decide, by decide,
        by decide, by decide, by decide, by decide, by decide, by decide⟩,
      by decide⟩

/-- C8 counterexample: the claim describes the pattern's top-level segments
as letters only and its localpart separators as dot/hyphen/underscore.  The
character class [A-Z|a-z] also contains the bar, so a@b.c| is accepted by
the code (one match of the real pattern) although it contains no match of
the claimed shape at all - by the claim, zero matches must reject. -/
theorem email_accepts_bar_tld :
    Validator.run (.email .unset) (some "a@b.c|") =
      .ok (.email (.stored (some "a@b.c|"))) ∧
    emailSpecMatchCount "a@b.c|" = 0 := by
  refine ⟨rfl, rfl⟩

/-- C8 amended: EmailValidator succeeds trivially on the absent sentinel;
on a string it succeeds iff findall yields exactly one match of the pattern
as written - localpart of alphanumerics segmented by characters of the
ASCII range dot..underscore (which includes digits, uppercase letters and
@ : ; etc.), alphanumeric/hyphen domain, and dot-separated top-level
segments of two or more characters drawn from the letters plus the bar -
and rejects with the incorrect-email error on zero or multiple matches;
it accepts john.doe@gmail.com, rejects not-an-email and a@b (no match)
and two space-separated embedded addresses (two matches). -/
theorem emailValidator_amended :
    (∀ st : EmailVState,
      Validator.run (.email st) none = .ok (.email (.stored none))) ∧
    (∀ (st : EmailVState) (s : String), emailMatchCount s = 1 →
      Validator.run (.email st) (some s) = .ok (.email (.stored (some s)))) ∧
    (∀ (st : EmailVState) (s : String), emailMatchCount s ≠ 1 →
      Validator.run (.email st) (some s) =
        .error (.valueError "Incorrect email address")) ∧
    emailMatchCount "john.doe@gmail.com" = 1 ∧
    emailMatchCount "not-an-email" = 0 ∧
    emailMatchCount "a@b" = 0 ∧
    emailMatchCount "a@b.cc d@e.ff" = 2 := by
  refine ⟨fun st => rfl, ?_, ?_, rfl, rfl, rfl, rfl⟩
  · intro st s h
    simp [Validator.run, h]
  · intro st s h
    simp [Validator.run, beq_iff_eq, h]

/-- C8 amended, witnessed at a concrete input: john.doe@gmail.com is
accepted and recorded. -/
theorem emailValidator_amended_witness :
    Validator.run (.email .unset) (some "john.doe@gmail.com") =
      .ok (.email (.stored (some "john.doe@gmail.com"))) :=
  emailValidator_amended.2.1 .unset "john.doe@gmail.com" rfl

end PersonalAssistant
